import Mathlib

/-!
Shallow embedding of `src/VALScoreboardTracker.py` and `src/config_parser.py`
(VALScoreboardTracker).  Pure Python computation becomes Lean functions; the
filesystem, directory listing, current date, and the external OCR adapter
(`ocr_library`, which is not under `src/`) are modelled as explicit input
data; Python exceptions become `Except` values or error components threaded
through the run.  Line numbers in doc comments refer to
`src/VALScoreboardTracker.py` unless the comment names `config_parser`.
-/

namespace VAL

/-- Errors raised inside `main` and caught by its outer `except Exception`
handler (lines 193-195). -/
inductive Err where
  | configParse
  | tableNotFound
  | indexError
  | fileNotFound
  | osError
deriving DecidableEq, Repr

/-- JSON values as produced by Python `json.loads` (shape only; numbers are
modelled as `Int`, and objects are not needed by any claim). -/
inductive Json where
  | null
  | bool (b : Bool)
  | num (n : Int)
  | str (s : String)
  | arr (elems : List Json)
deriving Repr

/-- Whether a JSON value is an array of strings — the shape the specification
asserts for `RunConfig.maps`. -/
def isStringArr : Json → Bool
  | .arr xs => xs.all fun j => match j with | .str _ => true | _ => false
  | _ => false

/-- The state of the `maps` entry of section `[General]` in `config.ini`, as
seen by `config_parser.read_config`: the section or option may be missing, the
stored value may fail `json.loads`, or it parses to a JSON value. -/
inductive MapsField where
  | missing
  | invalid
  | parsed (j : Json)

/-- `config_parser.read_config` (lines 31-49 of `config_parser.py`):
`config.get('General', 'maps')` raises when the section or the option is
missing, and `json.loads` raises on data that is not valid JSON; both
exceptions are unhandled and fatal.  Otherwise the parsed JSON value is
returned unchecked — no shape validation is performed. -/
def read_config : MapsField → Except Err Json
  | .missing => .error .configParse
  | .invalid => .error .configParse
  | .parsed j => .ok j

/-- The `maps` entry written by `config_parser.create_config`: the Python list
`[]` is stringified by `ConfigParser.read_dict` to the text `[]`, which
`json.loads` parses back to the empty JSON array. -/
def defaultMapsField : MapsField := .parsed (Json.arr [])

/-- `config_parser.create_config` (lines 11-29 of `config_parser.py`): writes
the default configuration to disk and then re-reads it via `read_config`. -/
def create_config : Except Err Json := read_config defaultMapsField

/-- Lines 107-113 of `main`: read the configuration if `config.ini` exists,
otherwise create it (which persists the default file). -/
def load_or_create (configPresent : Bool) (f : MapsField) : Except Err Json :=
  if configPresent then read_config f else create_config

/-- One screenshot's extraction-adapter outcome — the results of the
`ocr_library` calls in the loop body (lines 129-146), fixed as input data since
the adapter is external to the core: the detected map name, whether
`srf.find_tables` succeeds (line 137), the raw rows from
`srf.read_table_rows` (element 0 of a raw row is its team tag, the rest are
the player fields), and the agent names from `srf.identify_agents`. -/
structure Shot where
  mapName : String
  tableOk : Bool
  rawRows : List (List String)
  agents : List String

/-- Lines 153-157 of `main`, one loop iteration: `team = row[0]` (IndexError on
an empty row), then `[current_date, team, map_name, agents[i]] + row[1:]`
(IndexError when `i` is out of bounds of `agents`). -/
def mergeRow (date mapName : String) (agents : List String) (i : Nat)
    (row : List String) : Except Err (List String) :=
  match row with
  | [] => .error .indexError
  | team :: playerData =>
    match agents.get? i with
    | none => .error .indexError
    | some agent => .ok (date :: team :: mapName :: agent :: playerData)

/-- Lines 150-158 of `main`: `for i, row in enumerate(output)` building
`merged_output`; the first raised IndexError aborts the whole loop. -/
def mergeRows (date mapName : String) (agents : List String) :
    Nat → List (List String) → Except Err (List (List String))
  | _, [] => .ok []
  | i, row :: rest =>
    match mergeRow date mapName agents i row with
    | .error e => .error e
    | .ok m =>
      match mergeRows date mapName agents (i + 1) rest with
      | .error e => .error e
      | .ok ms => .ok (m :: ms)

/-- A Python list comprehension applying a possibly-raising function: elements
in order, first exception wins. -/
def mapExcept {α β : Type} (f : α → Except Err β) : List α → Except Err (List β)
  | [] => .ok []
  | x :: xs =>
    match f x with
    | .error e => .error e
    | .ok y =>
      match mapExcept f xs with
      | .error e => .error e
      | .ok ys => .ok (y :: ys)

/-- Line 170 of `main`: `[row[0], row[2], row[3]] + row[4:]`, an IndexError
when the row has fewer than four entries. -/
def cleanRow : List String → Except Err (List String)
  | d :: _team :: m :: a :: rest => .ok (d :: m :: a :: rest)
  | _ => .error .indexError

/-- Lines 150-170 of `main` — the Row Transformer: merge each raw row with the
run date, its team tag, the map name and its agent; filter
`row[1] == 'team1'`; when the filtered list is empty take the warning-and-skip
branch (lines 164-166), producing no rows; otherwise strip the team tag. -/
def transform (date mapName : String) (agents : List String)
    (raws : List (List String)) : Except Err (List (List String)) :=
  match mergeRows date mapName agents 0 raws with
  | .error e => .error e
  | .ok merged =>
    let filtered := merged.filter fun row => row.get? 1 == some "team1"
    if filtered.isEmpty then .ok []
    else mapExcept cleanRow filtered

/-- Lines 129-170 for one screenshot: `srf.find_tables` may raise a
table-not-found error, which is fatal for the whole run; otherwise the Row
Transformer runs on the adapter's outputs. -/
def processShot (date : String) (s : Shot) : Except Err (List (List String)) :=
  if s.tableOk then transform date s.mapName s.agents s.rawRows
  else .error .tableNotFound

/-- Modelled from the spec: `srf.write_csv` lives in `ocr_library`, which is
not under `src/`.  Per §4.5 the Scoreboard Store "persists `rows` after the
currently stored content", creating the artifact when absent; `none` models an
absent `scoreboard.csv`. -/
def write_csv (store : Option (List (List String))) (rows : List (List String)) :
    Option (List (List String)) :=
  some (store.getD [] ++ rows)

/-- Lines 164-172: `srf.write_csv` is called only when the filtered output is
nonempty; the `continue` branch leaves the store untouched. -/
def appendIfNonempty (store : Option (List (List String)))
    (rows : List (List String)) : Option (List (List String)) :=
  if rows.isEmpty then store else write_csv store rows

/-- Lines 125-173, the batch loop: screenshots are processed strictly in
listing order; the first raised error abandons the loop, keeping the rows
already written to the store. -/
def runLoop (date : String) :
    Option (List (List String)) → List Shot →
      Option (List (List String)) × Option Err
  | store, [] => (store, none)
  | store, s :: rest =>
    match processShot date s with
    | .error e => (store, some e)
    | .ok rows => runLoop date (appendIfNonempty store rows) rest

/-- The run outcome reported by `main`'s final status lines: success
(line 191), the early return when the screenshots folder is absent
(lines 175-177), or a caught exception (lines 193-195). -/
inductive Outcome where
  | success
  | noInput
  | failure (e : Err)
deriving DecidableEq, Repr

/-- The observable state produced by the part of `main` that follows a
successful configuration load. -/
structure FinalState where
  outcome : Outcome
  store : Option (List (List String))
  clipboard : Option (List (List String))
  tempPresent : Bool

/-- Lines 179-191, the Run Finalizer: remove `temp_headshot.png` if it exists —
an `os.remove` failure there is an uncaught OSError — then read
`scoreboard.csv` in full (FileNotFoundError when it was never created) and
copy its content to the clipboard. -/
def finalize (tempPresent tempRemoveFails : Bool)
    (store : Option (List (List String))) : FinalState :=
  if tempPresent && tempRemoveFails then
    ⟨.failure .osError, store, none, true⟩
  else
    match store with
    | none => ⟨.failure .fileNotFound, none, none, false⟩
    | some rows => ⟨.success, some rows, some rows, false⟩

/-- The ambient state a run of `main` starts from, with every source of
external nondeterminism fixed as data: the config file, whether the
screenshots folder exists and is a directory, the `.png`-filtered directory
listing with each screenshot's adapter outcome (meaningful only when
`folderOk` is true), any pre-existing `scoreboard.csv`, the temp-file state,
whether `os.remove` of the temp file would fail, and the formatted current
date. -/
structure RunInput where
  configPresent : Bool
  mapsField : MapsField
  folderOk : Bool
  shots : List Shot
  priorStore : Option (List (List String))
  tempPresent : Bool
  tempRemoveFails : Bool
  date : String

/-- The observable state when `main` returns: the reported outcome, the final
`scoreboard.csv` content, the clipboard, and the config and temp files. -/
structure RunResult where
  outcome : Outcome
  store : Option (List (List String))
  clipboard : Option (List (List String))
  configPresent : Bool
  mapsField : MapsField
  tempPresent : Bool

/-- Lines 117-191 after a successful configuration load: the old store is
removed first (lines 117-119), so the batch loop starts from an absent
artifact; a missing screenshots folder returns early before the finalizer. -/
def runBody (inp : RunInput) : FinalState :=
  if inp.folderOk then
    match runLoop inp.date none inp.shots with
    | (st, some e) => ⟨.failure e, st, none, inp.tempPresent⟩
    | (st, none) => finalize inp.tempPresent inp.tempRemoveFails st
  else
    ⟨.noInput, none, none, inp.tempPresent⟩

/-- `main` (lines 93-198) from the configuration load on: a configuration
error aborts before the store reset, leaving any prior artifact in place;
otherwise the store is reset, the batch loop runs, and the finalizer
publishes.  Tesseract setup (lines 97-100) precedes everything the
specification covers and is assumed successful. -/
def main (inp : RunInput) : RunResult :=
  match load_or_create inp.configPresent inp.mapsField with
  | .error e =>
    ⟨.failure e, inp.priorStore, none, inp.configPresent, inp.mapsField,
      inp.tempPresent⟩
  | .ok _ =>
    let f := runBody inp
    ⟨f.outcome, f.store, f.clipboard, true,
      if inp.configPresent then inp.mapsField else defaultMapsField,
      f.tempPresent⟩

/-- The run-relevant filesystem state left behind by one run, fed to a second
run over the same screenshots folder with the same adapter outcomes and the
same formatted date (the spec's "deterministic extraction" assumption). -/
def nextInput (inp : RunInput) : RunInput :=
  { inp with
    configPresent := (main inp).configPresent
    mapsField := (main inp).mapsField
    priorStore := (main inp).store
    tempPresent := (main inp).tempPresent }

/-- The merged (enriched) row built at line 157 for a raw row paired with its
agent classification. -/
def enrich (date mapName : String) (p : List String × String) : List String :=
  match p.1 with
  | [] => []
  | team :: rest => date :: team :: mapName :: p.2 :: rest

/-- The Row Transformer restated from the spec (§4.4): pair raw row `i` with
agent `i`, keep exactly the `team1` rows, and emit `date, map, agent` followed
by the original player fields in their original order. -/
def transformSpec (date mapName : String) (agents : List String)
    (raws : List (List String)) : List (List String) :=
  ((raws.zip agents).filter fun p => p.1.head? == some "team1").map
    fun p => date :: mapName :: p.2 :: p.1.tail

lemma drop_cons_of_get? {α : Type} (l : List α) :
    ∀ (i : Nat) (a : α), l.get? i = some a → l.drop i = a :: l.drop (i + 1) := by
  induction l with
  | nil => intro i a h; simp at h
  | cons x xs ih =>
    intro i a h
    cases i with
    | zero => simp_all
    | succ n =>
      simp only [List.get?] at h
      simpa [List.drop_succ_cons] using ih n a h

lemma mergeRows_eq_spec (date mapName : String) (agents : List String) :
    ∀ (raws : List (List String)) (i : Nat),
      (∀ r ∈ raws, r ≠ []) → i + raws.length ≤ agents.length →
      mergeRows date mapName agents i raws =
        .ok ((raws.zip (agents.drop i)).map (enrich date mapName)) := by
  intro raws
  induction raws with
  | nil => intro i _ _; simp [mergeRows]
  | cons row rest ih =>
    intro i hne hlen
    cases row with
    | nil => exact absurd rfl (hne [] (by simp))
    | cons team tl =>
      have hi : i < agents.length := by
        simp only [List.length_cons] at hlen; omega
      have hget : agents.get? i = some (agents.get ⟨i, hi⟩) := List.get?_eq_get hi
      have hdrop := drop_cons_of_get? agents i _ hget
      have hrow : mergeRow date mapName agents i (team :: tl) =
          .ok (date :: team :: mapName :: agents.get ⟨i, hi⟩ :: tl) := by
        simp only [mergeRow, hget]
      have hrec := ih (i + 1) (fun r hr => hne r (List.mem_cons_of_mem _ hr))
        (by simp only [List.length_cons] at hlen ⊢; omega)
      simp only [mergeRows, hrow, hrec]
      rw [hdrop]
      simp only [List.zip_cons_cons, List.map_cons, enrich]

lemma mergeRows_oob (date mapName : String) (agents : List String) :
    ∀ (raws : List (List String)) (i : Nat),
      (∀ r ∈ raws, r ≠ []) → i ≤ agents.length → agents.length < i + raws.length →
      mergeRows date mapName agents i raws = .error .indexError := by
  intro raws
  induction raws with
  | nil => intro i _ hle hlt; simp only [List.length_nil] at hlt; omega
  | cons row rest ih =>
    intro i hne hle hlt
    cases row with
    | nil => exact absurd rfl (hne [] (by simp))
    | cons team tl =>
      by_cases hi : i < agents.length
      · have hget : agents.get? i = some (agents.get ⟨i, hi⟩) := List.get?_eq_get hi
        have hrow : mergeRow date mapName agents i (team :: tl) =
            .ok (date :: team :: mapName :: agents.get ⟨i, hi⟩ :: tl) := by
          simp only [mergeRow, hget]
        have hrec := ih (i + 1) (fun r hr => hne r (List.mem_cons_of_mem _ hr))
          (by omega) (by simp only [List.length_cons] at hlt ⊢; omega)
        simp only [mergeRows, hrow, hrec]
      · have hget : agents.get? i = none := by
          rw [List.get?_eq_none]; omega
        have hrow : mergeRow date mapName agents i (team :: tl) =
            .error .indexError := by
          simp only [mergeRow, hget]
        simp only [mergeRows, hrow]

lemma pred_enrich (date mapName t agent : String) (tl : List String) :
    ((date :: t :: mapName :: agent :: tl).get? 1 == some "team1") =
      (t == "team1") := rfl

lemma pred_head (t : String) (tl : List String) :
    ((t :: tl).head? == some "team1") = (t == "team1") := rfl

lemma filter_enrich (date mapName : String) :
    ∀ (l : List (List String × String)), (∀ p ∈ l, p.1 ≠ []) →
      (l.map (enrich date mapName)).filter
          (fun row => row.get? 1 == some "team1") =
        (l.filter fun p => p.1.head? == some "team1").map (enrich date mapName) := by
  intro l
  induction l with
  | nil => intro _; rfl
  | cons p rest ih =>
    intro h
    have hp : p.1 ≠ [] := h p (by simp)
    obtain ⟨t, tl, hptl⟩ : ∃ t tl, p.1 = t :: tl := by
      cases hc : p.1 with
      | nil => exact absurd hc hp
      | cons a b => exact ⟨a, b, rfl⟩
    have henr : enrich date mapName p = date :: t :: mapName :: p.2 :: tl := by
      simp [enrich, hptl]
    have hrest := ih fun q hq => h q (List.mem_cons_of_mem _ hq)
    simp only [List.map_cons, List.filter_cons, henr, hptl, pred_enrich, pred_head]
    by_cases htt : (t == "team1") = true
    · rw [if_pos htt, if_pos htt, List.map_cons, henr, hrest]
    · rw [if_neg htt, if_neg htt]
      exact hrest

lemma clean_enrich (date mapName : String) :
    ∀ (l : List (List String × String)), (∀ p ∈ l, p.1 ≠ []) →
      mapExcept cleanRow (l.map (enrich date mapName)) =
        .ok (l.map fun p => date :: mapName :: p.2 :: p.1.tail) := by
  intro l
  induction l with
  | nil => intro _; rfl
  | cons p rest ih =>
    intro h
    have hp : p.1 ≠ [] := h p (by simp)
    obtain ⟨t, tl, hptl⟩ : ∃ t tl, p.1 = t :: tl := by
      cases hc : p.1 with
      | nil => exact absurd hc hp
      | cons a b => exact ⟨a, b, rfl⟩
    have hrest := ih fun q hq => h q (List.mem_cons_of_mem _ hq)
    simp [mapExcept, enrich, hptl, cleanRow, hrest]

lemma transform_eq_spec (date mapName : String) (agents : List String)
    (raws : List (List String)) (hne : ∀ r ∈ raws, r ≠ [])
    (hlen : raws.length ≤ agents.length) :
    transform date mapName agents raws =
      .ok (transformSpec date mapName agents raws) := by
  have hzne : ∀ p ∈ raws.zip agents, p.1 ≠ [] := by
    intro p hp
    exact hne p.1 (List.of_mem_zip hp).1
  have hm := mergeRows_eq_spec date mapName agents raws 0 hne (by simpa using hlen)
  rw [List.drop_zero] at hm
  have hfil := filter_enrich date mapName (raws.zip agents) hzne
  simp only [transform, hm, hfil]
  cases hz : (raws.zip agents).filter fun p => p.1.head? == some "team1" with
  | nil => simp [transformSpec, hz]
  | cons q qs =>
    have hq : ∀ p ∈ q :: qs, p.1 ≠ [] := by
      intro p hp
      rw [← hz] at hp
      exact hzne p (List.mem_of_mem_filter hp)
    have hce := clean_enrich date mapName (q :: qs) hq
    simp only [List.map_cons] at hce
    simp [transformSpec, hz, hce]

lemma runLoop_cons_ok (date : String) (store : Option (List (List String)))
    (s : Shot) (rest : List Shot) (rows : List (List String))
    (h : processShot date s = .ok rows) :
    runLoop date store (s :: rest) =
      runLoop date (appendIfNonempty store rows) rest := by
  simp only [runLoop, h]

lemma runLoop_cons_err (date : String) (store : Option (List (List String)))
    (s : Shot) (rest : List Shot) (e : Err)
    (h : processShot date s = .error e) :
    runLoop date store (s :: rest) = (store, some e) := by
  simp only [runLoop, h]

lemma appendIfNonempty_getD (store : Option (List (List String)))
    (rows : List (List String)) :
    (appendIfNonempty store rows).getD [] = store.getD [] ++ rows := by
  cases rows with
  | nil => simp [appendIfNonempty]
  | cons r rs => simp [appendIfNonempty, write_csv]

lemma appendIfNonempty_nil (store : Option (List (List String))) :
    appendIfNonempty store [] = store := by
  simp [appendIfNonempty]

lemma runLoop_all_empty (date : String) :
    ∀ (shots : List Shot) (store : Option (List (List String))),
      (∀ s ∈ shots, processShot date s = .ok []) →
      runLoop date store shots = (store, none) := by
  intro shots
  induction shots with
  | nil => intro store _; rfl
  | cons s rest ih =>
    intro store h
    rw [runLoop_cons_ok date store s rest [] (h s (by simp)), appendIfNonempty_nil]
    exact ih store fun t ht => h t (List.mem_cons_of_mem _ ht)

lemma finalize_store (t f : Bool) (st : Option (List (List String))) :
    (finalize t f st).store = st := by
  unfold finalize
  by_cases h : (t && f) = true
  · rw [if_pos h]
  · rw [if_neg h]
    cases st <;> rfl

lemma finalize_fail (t f : Bool) (st : Option (List (List String)))
    (ht : t = true) (hf : f = true) :
    finalize t f st = ⟨.failure .osError, st, none, true⟩ := by
  simp [finalize, ht, hf]

lemma finalize_none (t f : Bool) (h : (t && f) = false) :
    finalize t f none = ⟨.failure .fileNotFound, none, none, false⟩ := by
  simp [finalize, h]

lemma finalize_some (t f : Bool) (rows : List (List String))
    (h : (t && f) = false) :
    finalize t f (some rows) = ⟨.success, some rows, some rows, false⟩ := by
  simp [finalize, h]

lemma runBody_no_folder (inp : RunInput) (hf : inp.folderOk = false) :
    runBody inp = ⟨.noInput, none, none, inp.tempPresent⟩ := by
  simp [runBody, hf]

lemma runBody_loop_err (inp : RunInput) (st : Option (List (List String)))
    (e : Err) (hf : inp.folderOk = true)
    (h : runLoop inp.date none inp.shots = (st, some e)) :
    runBody inp = ⟨.failure e, st, none, inp.tempPresent⟩ := by
  simp [runBody, hf, h]

lemma runBody_loop_ok (inp : RunInput) (st : Option (List (List String)))
    (hf : inp.folderOk = true)
    (h : runLoop inp.date none inp.shots = (st, none)) :
    runBody inp = finalize inp.tempPresent inp.tempRemoveFails st := by
  simp [runBody, hf, h]

lemma runBody_store (inp : RunInput) :
    (runBody inp).store =
      if inp.folderOk then (runLoop inp.date none inp.shots).1 else none := by
  by_cases hf : inp.folderOk = true
  · rcases h : runLoop inp.date none inp.shots with ⟨st, err⟩
    cases err with
    | none => simp [runBody_loop_ok inp st hf h, finalize_store, hf, h]
    | some e => simp [runBody_loop_err inp st e hf h, hf, h]
  · have hf' : inp.folderOk = false := by
      cases hb : inp.folderOk
      · rfl
      · exact absurd hb hf
    simp [runBody_no_folder inp hf', hf']

lemma main_err (inp : RunInput) (e : Err)
    (h : load_or_create inp.configPresent inp.mapsField = .error e) :
    main inp = ⟨.failure e, inp.priorStore, none, inp.configPresent,
      inp.mapsField, inp.tempPresent⟩ := by
  simp only [main, h]

lemma main_ok (inp : RunInput) (m : Json)
    (h : load_or_create inp.configPresent inp.mapsField = .ok m) :
    main inp = ⟨(runBody inp).outcome, (runBody inp).store,
      (runBody inp).clipboard, true,
      (if inp.configPresent then inp.mapsField else defaultMapsField),
      (runBody inp).tempPresent⟩ := by
  simp only [main, h]

lemma load_ok_of_absent (cp : Bool) (f : MapsField) (h : cp = false) :
    load_or_create cp f = .ok (Json.arr []) := by
  simp [load_or_create, h, create_config, read_config, defaultMapsField]

lemma load_err_present (cp : Bool) (f : MapsField) (e : Err)
    (h : load_or_create cp f = .error e) : cp = true := by
  cases hb : cp
  · rw [load_ok_of_absent cp f hb] at h
    exact absurd h (by simp)
  · rfl

lemma finalize_fail_and (t f : Bool) (st : Option (List (List String)))
    (h : (t && f) = true) :
    finalize t f st = ⟨.failure .osError, st, none, true⟩ := by
  simp [finalize, h]

lemma runBody_store_of_folder (inp : RunInput) (hf : inp.folderOk = true) :
    (runBody inp).store = (runLoop inp.date none inp.shots).1 := by
  rcases h : runLoop inp.date none inp.shots with ⟨st, err⟩
  cases err with
  | none => simp [runBody_loop_ok inp st hf h, finalize_store]
  | some e => simp [runBody_loop_err inp st e hf h]

lemma transform_merge_err (date mapName : String) (agents : List String)
    (raws : List (List String)) (e : Err)
    (h : mergeRows date mapName agents 0 raws = .error e) :
    transform date mapName agents raws = .error e := by
  simp only [transform, h]

/-- A concrete screenshot whose single raw row is team1-tagged. -/
def shotJett : Shot := ⟨"Ascent", true, [["team1", "1"]], ["Jett"]⟩

/-- A concrete screenshot whose single raw row is team1-tagged, on another map. -/
def shotSova : Shot := ⟨"Bind", true, [["team1", "2"]], ["Sova"]⟩

/-- A concrete screenshot whose rows are all team2-tagged (empty filter). -/
def shotOmen : Shot := ⟨"Haven", true, [["team2", "3"]], ["Omen"]⟩

/-- A concrete screenshot on which table segmentation fails. -/
def shotNoTable : Shot := ⟨"Split", false, [], []⟩

/-- Claim C1 (team filter correctness): the Row Transformer of `main`
(lines 150-170: merge, filter `row[1] == 'team1'`, strip the team tag) keeps
exactly the rows whose team tag equals `team1`: its output is precisely
`transformSpec`, the cleaned image of the team1-filtered pairing of raw rows
with agents, so the persisted output contains zero rows originating from a
`team2`-tagged raw row.  The hypotheses are the spec's RawRow shape (§3): one
agent classification per raw row, and every raw row nonempty (team tag plus
player fields). -/
theorem team_filter_correct (date mapName : String) (agents : List String)
    (raws : List (List String)) (hlen : raws.length = agents.length)
    (hne : ∀ r ∈ raws, r ≠ []) :
    transform date mapName agents raws =
      .ok (transformSpec date mapName agents raws) :=
  transform_eq_spec date mapName agents raws hne (le_of_eq hlen)

/-- Witness for C1, the spec's example: map `Ascent`, date `01/01/2024`, raw
rows `(team1, [10,2,5])` and `(team2, [8,3,4])` with agents `Jett`, `Sova`
yield exactly the single row `01/01/2024,Ascent,Jett,10,2,5`. -/
theorem team_filter_correct_witness :
    (([["team1", "10", "2", "5"], ["team2", "8", "3", "4"]] :
          List (List String)).length = (["Jett", "Sova"] : List String).length ∧
      ∀ r ∈ ([["team1", "10", "2", "5"], ["team2", "8", "3", "4"]] :
          List (List String)), r ≠ []) ∧
    transform "01/01/2024" "Ascent" ["Jett", "Sova"]
        [["team1", "10", "2", "5"], ["team2", "8", "3", "4"]] =
      .ok [["01/01/2024", "Ascent", "Jett", "10", "2", "5"]] := by
  refine ⟨⟨by decide, by decide⟩, ?_⟩
  rw [team_filter_correct "01/01/2024" "Ascent" ["Jett", "Sova"]
    [["team1", "10", "2", "5"], ["team2", "8", "3", "4"]] (by decide) (by decide)]
  rfl

/-- Claim C2 (schema invariant): when every raw row of a screenshot carries
`k` player fields after its team tag, every row the Row Transformer persists
has exactly `3 + k` columns, in the order date, map, agent, then the original
player fields in their original order — the team tag is dropped, not kept as
a column. -/
theorem schema_invariant (date mapName : String) (agents : List String)
    (raws : List (List String)) (k : Nat) (out : List (List String))
    (hlen : raws.length = agents.length)
    (hk : ∀ r ∈ raws, r.length = k + 1)
    (hout : transform date mapName agents raws = .ok out) :
    ∀ row ∈ out, row.length = 3 + k ∧
      ∃ agent fields, fields.length = k ∧ ("team1" :: fields) ∈ raws ∧
        row = date :: mapName :: agent :: fields := by
  have hne : ∀ r ∈ raws, r ≠ [] := by
    intro r hr hnil
    have hlr := hk r hr
    rw [hnil] at hlr
    simp at hlr
  rw [transform_eq_spec date mapName agents raws hne (le_of_eq hlen)] at hout
  have hout' : out = transformSpec date mapName agents raws := by
    injection hout with h
    exact h.symm
  subst hout'
  intro row hrow
  simp only [transformSpec, List.mem_map] at hrow
  obtain ⟨p, hpfil, hprow⟩ := hrow
  have hmf := List.mem_filter.mp hpfil
  have hpzip : p ∈ raws.zip agents := hmf.1
  have hpteam : (p.1.head? == some "team1") = true := hmf.2
  have hp1 : p.1 ∈ raws := (List.of_mem_zip hpzip).1
  have hlen1 : p.1.length = k + 1 := hk p.1 hp1
  obtain ⟨t, tl, hptl⟩ : ∃ t tl, p.1 = t :: tl := by
    cases hc : p.1 with
    | nil => rw [hc] at hlen1; simp at hlen1
    | cons a b => exact ⟨a, b, rfl⟩
  have ht : t = "team1" := by
    rw [hptl] at hpteam
    simpa using hpteam
  have htl : tl.length = k := by
    rw [hptl] at hlen1
    simpa using hlen1
  constructor
  · rw [← hprow, hptl]
    simp [htl]
    omega
  · refine ⟨p.2, tl, htl, ?_, ?_⟩
    · rw [← ht, ← hptl]
      exact hp1
    · rw [← hprow, hptl]
      rfl

/-- Witness for C2 on the spec's example screenshot (`k = 3` player fields):
the surviving row has `3 + 3` columns in the order date, map, agent, fields. -/
theorem schema_invariant_witness :
    (([["team1", "10", "2", "5"], ["team2", "8", "3", "4"]] :
          List (List String)).length = (["Jett", "Sova"] : List String).length ∧
      ∀ r ∈ ([["team1", "10", "2", "5"], ["team2", "8", "3", "4"]] :
          List (List String)), r.length = 3 + 1) ∧
    ∀ row ∈ ([["01/01/2024", "Ascent", "Jett", "10", "2", "5"]] :
        List (List String)), row.length = 3 + 3 ∧
      ∃ agent fields, fields.length = 3 ∧
        ("team1" :: fields) ∈
          ([["team1", "10", "2", "5"], ["team2", "8", "3", "4"]] :
            List (List String)) ∧
        row = "01/01/2024" :: "Ascent" :: agent :: fields :=
  ⟨⟨by decide, by decide⟩,
    schema_invariant "01/01/2024" "Ascent" ["Jett", "Sova"]
      [["team1", "10", "2", "5"], ["team2", "8", "3", "4"]] 3
      [["01/01/2024", "Ascent", "Jett", "10", "2", "5"]]
      (by decide) (by decide) rfl⟩

/-- Claim C8 (index-correspondence precondition): with every raw row carrying
a team tag, under the precondition that raw rows and agents have equal length
the merge step (`agents[i]` at line 157) never indexes out of bounds and the
merge succeeds; when the agents sequence is shorter, the merge raises an
IndexError, which is not locally recovered and propagates out of the batch
loop as a fatal condition for the whole run. -/
theorem merge_index_correspondence (inp : RunInput) (mapName : String)
    (raws : List (List String)) (agents : List String)
    (hne : ∀ r ∈ raws, r ≠ [])
    (hshots : inp.shots = [⟨mapName, true, raws, agents⟩])
    (hcfg : ∃ m, load_or_create inp.configPresent inp.mapsField = .ok m)
    (hf : inp.folderOk = true) :
    (raws.length = agents.length →
      ∃ out, mergeRows inp.date mapName agents 0 raws = .ok out) ∧
    (agents.length < raws.length →
      mergeRows inp.date mapName agents 0 raws = .error .indexError ∧
        (main inp).outcome = .failure .indexError) := by
  constructor
  · intro hlen
    exact ⟨_, mergeRows_eq_spec inp.date mapName agents raws 0 hne (by omega)⟩
  · intro hlt
    have hme := mergeRows_oob inp.date mapName agents raws 0 hne
      (Nat.zero_le _) (by omega)
    refine ⟨hme, ?_⟩
    have hps : processShot inp.date ⟨mapName, true, raws, agents⟩ =
        .error .indexError := by
      simp [processShot, transform_merge_err inp.date mapName agents raws _ hme]
    have hloop : runLoop inp.date none inp.shots = (none, some .indexError) := by
      rw [hshots]
      exact runLoop_cons_err inp.date none _ _ _ hps
    obtain ⟨m, hm⟩ := hcfg
    simp [main_ok inp m hm, runBody_loop_err inp none .indexError hf hloop]

/-- Witness for C8: two raw rows but a single agent classification — the merge
raises an IndexError and the whole run reports failure. -/
theorem merge_index_correspondence_witness :
    ((∀ r ∈ ([["team1", "1"], ["team1", "2"]] : List (List String)), r ≠ []) ∧
      (⟨true, .parsed (Json.arr []), true,
          [⟨"Ascent", true, [["team1", "1"], ["team1", "2"]], ["Jett"]⟩],
          none, false, false, "d"⟩ : RunInput).shots =
        [⟨"Ascent", true, [["team1", "1"], ["team1", "2"]], ["Jett"]⟩] ∧
      (["Jett"] : List String).length <
        ([["team1", "1"], ["team1", "2"]] : List (List String)).length) ∧
    (main ⟨true, .parsed (Json.arr []), true,
        [⟨"Ascent", true, [["team1", "1"], ["team1", "2"]], ["Jett"]⟩],
        none, false, false, "d"⟩).outcome = .failure .indexError :=
  ⟨⟨by decide, rfl, by decide⟩,
    ((merge_index_correspondence
        ⟨true, .parsed (Json.arr []), true,
          [⟨"Ascent", true, [["team1", "1"], ["team1", "2"]], ["Jett"]⟩],
          none, false, false, "d"⟩
        "Ascent" [["team1", "1"], ["team1", "2"]]
        ["Jett"] (by decide) rfl ⟨Json.arr [], rfl⟩ rfl).2 (by decide)).2⟩

/-- Claim C3 (append ordering): when a run processes screenshots `[A, B, C]`
in that order and each is processed without error, the final store's row
sequence is exactly `rows(A) ++ rows(B) ++ rows(C)` — concatenation in
screenshot order, order-preserving within each screenshot (an absent artifact
reads as the empty sequence). -/
theorem append_ordering (inp : RunInput) (A B C : Shot)
    (ra rb rc : List (List String))
    (hshots : inp.shots = [A, B, C])
    (hcfg : ∃ m, load_or_create inp.configPresent inp.mapsField = .ok m)
    (hf : inp.folderOk = true)
    (hA : processShot inp.date A = .ok ra)
    (hB : processShot inp.date B = .ok rb)
    (hC : processShot inp.date C = .ok rc) :
    (main inp).store.getD [] = ra ++ rb ++ rc := by
  obtain ⟨m, hm⟩ := hcfg
  have hloop : runLoop inp.date none inp.shots =
      (appendIfNonempty (appendIfNonempty (appendIfNonempty none ra) rb) rc,
        none) := by
    rw [hshots, runLoop_cons_ok inp.date none A _ ra hA,
      runLoop_cons_ok inp.date _ B _ rb hB,
      runLoop_cons_ok inp.date _ C _ rc hC]
    rfl
  simp only [main_ok inp m hm]
  rw [runBody_store_of_folder inp hf, hloop]
  simp [appendIfNonempty_getD]

/-- Witness for C3: three concrete screenshots, the third contributing zero
rows (empty team1 filter), appended strictly in order. -/
theorem append_ordering_witness :
    ((⟨true, .parsed (Json.arr []), true, [shotJett, shotSova, shotOmen],
          none, false, false, "d"⟩ : RunInput).shots =
        [shotJett, shotSova, shotOmen] ∧
      (∃ m, load_or_create true (.parsed (Json.arr [])) = .ok m) ∧
      processShot "d" shotJett = .ok [["d", "Ascent", "Jett", "1"]] ∧
      processShot "d" shotSova = .ok [["d", "Bind", "Sova", "2"]] ∧
      processShot "d" shotOmen = .ok []) ∧
    (main ⟨true, .parsed (Json.arr []), true, [shotJett, shotSova, shotOmen],
        none, false, false, "d"⟩).store.getD [] =
      [["d", "Ascent", "Jett", "1"]] ++ [["d", "Bind", "Sova", "2"]] ++ [] :=
  ⟨⟨rfl, ⟨Json.arr [], rfl⟩, rfl, rfl, rfl⟩,
    append_ordering _ shotJett shotSova shotOmen _ _ _ rfl
      ⟨Json.arr [], rfl⟩ rfl rfl rfl rfl⟩

/-- Claim C4 (fail-fast propagation): when table segmentation raises for
screenshot `B` (processed after `A`, before `C`), the whole batch loop is
abandoned — the store holds exactly `rows(A)`, nothing from `B` or `C`, the
clipboard is never written, and the run reports failure. -/
theorem fail_fast_propagation (inp : RunInput) (A B C : Shot)
    (ra : List (List String))
    (hshots : inp.shots = [A, B, C])
    (hcfg : ∃ m, load_or_create inp.configPresent inp.mapsField = .ok m)
    (hf : inp.folderOk = true)
    (hA : processShot inp.date A = .ok ra)
    (hB : processShot inp.date B = .error .tableNotFound) :
    (main inp).outcome = .failure .tableNotFound ∧
      (main inp).store.getD [] = ra ∧ (main inp).clipboard = none := by
  obtain ⟨m, hm⟩ := hcfg
  have hloop : runLoop inp.date none inp.shots =
      (appendIfNonempty none ra, some .tableNotFound) := by
    rw [hshots, runLoop_cons_ok inp.date none A _ ra hA,
      runLoop_cons_err inp.date _ B _ _ hB]
  have hrb := runBody_loop_err inp _ _ hf hloop
  refine ⟨?_, ?_, ?_⟩ <;> simp [main_ok inp m hm, hrb, appendIfNonempty_getD]

/-- Witness for C4: segmentation fails on the second of three screenshots;
only the first screenshot's row survives and the run fails. -/
theorem fail_fast_propagation_witness :
    ((⟨true, .parsed (Json.arr []), true, [shotJett, shotNoTable, shotSova],
          none, false, false, "d"⟩ : RunInput).shots =
        [shotJett, shotNoTable, shotSova] ∧
      (∃ m, load_or_create true (.parsed (Json.arr [])) = .ok m) ∧
      processShot "d" shotJett = .ok [["d", "Ascent", "Jett", "1"]] ∧
      processShot "d" shotNoTable = .error .tableNotFound) ∧
    ((main ⟨true, .parsed (Json.arr []), true, [shotJett, shotNoTable, shotSova],
          none, false, false, "d"⟩).outcome = .failure .tableNotFound ∧
      (main ⟨true, .parsed (Json.arr []), true, [shotJett, shotNoTable, shotSova],
          none, false, false, "d"⟩).store.getD [] = [["d", "Ascent", "Jett", "1"]] ∧
      (main ⟨true, .parsed (Json.arr []), true, [shotJett, shotNoTable, shotSova],
          none, false, false, "d"⟩).clipboard = none) :=
  ⟨⟨rfl, ⟨Json.arr [], rfl⟩, rfl, rfl⟩,
    fail_fast_propagation _ shotJett shotNoTable shotSova _ rfl
      ⟨Json.arr [], rfl⟩ rfl rfl rfl⟩

/-- Claim C10 (all-empty run is not a success): when the folder exists and
every processed screenshot falls into the warning-and-skip branch (zero team1
rows), `write_csv` is never called, so the store artifact is never created;
the finalizer's read of the store then fails and the run reports an error
instead of publishing an empty payload.  (`tempRemoveFails = false` isolates
the finalizer's read error from the unrelated cleanup error.) -/
theorem all_empty_run_fails (inp : RunInput)
    (hcfg : ∃ m, load_or_create inp.configPresent inp.mapsField = .ok m)
    (hf : inp.folderOk = true)
    (hall : ∀ s ∈ inp.shots, processShot inp.date s = .ok [])
    (htemp : inp.tempRemoveFails = false) :
    (main inp).store = none ∧
      (main inp).outcome = .failure .fileNotFound ∧
      (main inp).clipboard = none := by
  obtain ⟨m, hm⟩ := hcfg
  have hloop := runLoop_all_empty inp.date inp.shots none hall
  have hrb := runBody_loop_ok inp none hf hloop
  have hfin := finalize_none inp.tempPresent inp.tempRemoveFails
    (by simp [htemp])
  refine ⟨?_, ?_, ?_⟩ <;> simp [main_ok inp m hm, hrb, hfin]

/-- Witness for C10: one screenshot whose rows are all team2 — the run ends
with a missing-store read error and an empty clipboard. -/
theorem all_empty_run_fails_witness :
    ((∃ m, load_or_create true (.parsed (Json.arr [])) = .ok m) ∧
      (∀ s ∈ (⟨true, .parsed (Json.arr []), true, [shotOmen],
          none, false, false, "d"⟩ : RunInput).shots,
        processShot "d" s = .ok [])) ∧
    ((main ⟨true, .parsed (Json.arr []), true, [shotOmen],
        none, false, false, "d"⟩).store = none ∧
      (main ⟨true, .parsed (Json.arr []), true, [shotOmen],
        none, false, false, "d"⟩).outcome = .failure .fileNotFound ∧
      (main ⟨true, .parsed (Json.arr []), true, [shotOmen],
        none, false, false, "d"⟩).clipboard = none) :=
  ⟨⟨⟨Json.arr [], rfl⟩, fun s hs => by
      rw [List.mem_singleton] at hs
      subst hs
      rfl⟩,
    all_empty_run_fails _ ⟨Json.arr [], rfl⟩ rfl
      (fun s hs => by
        rw [List.mem_singleton] at hs
        subst hs
        rfl) rfl⟩

/-- Counterexample to C5 as stated: the screenshots folder exists but holds
no matching screenshot, and the run does NOT terminate without error — the
finalizer cannot read the never-created store and the run reports a failure. -/
theorem no_input_empty_folder_cex :
    (main ⟨true, .parsed (Json.arr []), true, [], none, false, false,
        "01/01/2024"⟩).outcome = .failure .fileNotFound ∧
      (main ⟨true, .parsed (Json.arr []), true, [], none, false, false,
        "01/01/2024"⟩).outcome ≠ .noInput ∧
      (main ⟨true, .parsed (Json.arr []), true, [], none, false, false,
        "01/01/2024"⟩).outcome ≠ .success := by
  refine ⟨rfl, ?_, ?_⟩ <;> decide

/-- Claim C5 as amended: the run terminates early without error only when the
screenshots folder is missing (or not a directory); when the folder exists
but contains no matching screenshot, the loop body never runs and the
finalizer's read of the never-created store makes the run report an error. -/
theorem no_input_amended (inp : RunInput) :
    ((∃ m, load_or_create inp.configPresent inp.mapsField = .ok m) →
      inp.folderOk = false →
      (main inp).outcome = .noInput ∧ (main inp).clipboard = none ∧
        (main inp).store = none) ∧
    (inp.folderOk = true → inp.shots = [] →
      ∃ e, (main inp).outcome = .failure e) := by
  constructor
  · rintro ⟨m, hm⟩ hf
    have hrb := runBody_no_folder inp hf
    refine ⟨?_, ?_, ?_⟩ <;> simp [main_ok inp m hm, hrb]
  · intro hf hsh
    cases hload : load_or_create inp.configPresent inp.mapsField with
    | error e => exact ⟨e, by simp [main_err inp e hload]⟩
    | ok m =>
      have hloop : runLoop inp.date none inp.shots = (none, none) := by
        rw [hsh]
        rfl
      have hrb := runBody_loop_ok inp none hf hloop
      by_cases htf : (inp.tempPresent && inp.tempRemoveFails) = true
      · exact ⟨.osError,
          by simp [main_ok inp m hload, hrb, finalize_fail_and _ _ _ htf]⟩
      · have htf' : (inp.tempPresent && inp.tempRemoveFails) = false :=
          Bool.eq_false_iff.mpr htf
        exact ⟨.fileNotFound,
          by simp [main_ok inp m hload, hrb, finalize_none _ _ htf']⟩

/-- Witness for the amended C5, missing-folder half: the run ends with the
"nothing to do" outcome and publishes nothing. -/
theorem no_input_amended_witness :
    ((∃ m, load_or_create true (.parsed (Json.arr [])) = .ok m) ∧
      (⟨true, .parsed (Json.arr []), false, [], none, false, false,
        "d"⟩ : RunInput).folderOk = false) ∧
    ((main ⟨true, .parsed (Json.arr []), false, [], none, false, false,
        "d"⟩).outcome = .noInput ∧
      (main ⟨true, .parsed (Json.arr []), false, [], none, false, false,
        "d"⟩).clipboard = none ∧
      (main ⟨true, .parsed (Json.arr []), false, [], none, false, false,
        "d"⟩).store = none) :=
  ⟨⟨⟨Json.arr [], rfl⟩, rfl⟩,
    (no_input_amended _).1 ⟨Json.arr [], rfl⟩ rfl⟩

/-- Claim C6 (idempotent reset): the prior artifact is deleted before any
screenshot is processed, so feeding one run's resulting filesystem state into
a second run over the same folder, with the same adapter outcomes and date,
yields an identical store artifact — re-running never appends to stale data. -/
theorem idempotent_reset (inp : RunInput) :
    (main (nextInput inp)).store = (main inp).store := by
  cases hload : load_or_create inp.configPresent inp.mapsField with
  | error e =>
    have hm := main_err inp e hload
    have hnext : nextInput inp = inp := by
      simp only [nextInput, hm]
    rw [hnext]
  | ok m =>
    have hm := main_ok inp m hload
    have hload2 : ∃ m2,
        load_or_create (nextInput inp).configPresent
          (nextInput inp).mapsField = .ok m2 := by
      have hcp : (nextInput inp).configPresent = true := by
        simp only [nextInput, hm]
      have hmfd : (nextInput inp).mapsField =
          (if inp.configPresent then inp.mapsField else defaultMapsField) := by
        simp only [nextInput, hm]
      rw [hcp, hmfd]
      by_cases hc : inp.configPresent = true
      · rw [if_pos hc, ← hc]
        exact ⟨m, hload⟩
      · rw [if_neg hc]
        exact ⟨Json.arr [], rfl⟩
    obtain ⟨m2, hm2⟩ := hload2
    have hm2' := main_ok (nextInput inp) m2 hm2
    simp only [hm2', hm]
    rw [runBody_store, runBody_store]
    rfl

/-- Counterexample to C7 as stated: a persisted `maps` field holding the
valid JSON number `5` is parsed, accepted and returned as-is — the run does
not fail, and the returned maps value is not a sequence of strings. -/
theorem config_maps_not_strings_cex :
    read_config (MapsField.parsed (Json.num 5)) = .ok (Json.num 5) ∧
      isStringArr (Json.num 5) = false ∧
      (main ⟨true, .parsed (Json.num 5), false, [], none, false, false,
        "d"⟩).outcome = .noInput :=
  ⟨rfl, rfl, rfl⟩

/-- Claim C7 as amended: a persisted config whose `maps` field is missing or
not valid structured data makes the run fail fatally before any screenshot is
processed (the prior store is left untouched, nothing is published); an
absent config is synthesized with an empty maps sequence and persisted before
being returned; but the returned maps value is only whatever JSON value the
field parses to — a non-sequence structured value is accepted and returned
as-is, so it is a (possibly empty) sequence of strings only when the field
holds one (as the synthesized default does). -/
theorem config_lifecycle_amended (inp : RunInput) (j : Json) :
    (inp.configPresent = true → inp.mapsField = .missing →
      (main inp).outcome = .failure .configParse ∧
        (main inp).store = inp.priorStore ∧ (main inp).clipboard = none) ∧
    (inp.configPresent = true → inp.mapsField = .invalid →
      (main inp).outcome = .failure .configParse ∧
        (main inp).store = inp.priorStore ∧ (main inp).clipboard = none) ∧
    (inp.configPresent = false →
      load_or_create inp.configPresent inp.mapsField = .ok (Json.arr []) ∧
        (main inp).configPresent = true ∧
        (main inp).mapsField = defaultMapsField) ∧
    (inp.configPresent = true → inp.mapsField = .parsed j →
      load_or_create inp.configPresent inp.mapsField = .ok j) := by
  refine ⟨?_, ?_, ?_, ?_⟩
  · intro hc hmf
    have hload : load_or_create inp.configPresent inp.mapsField =
        .error .configParse := by
      simp [load_or_create, hc, hmf, read_config]
    refine ⟨?_, ?_, ?_⟩ <;> simp [main_err inp _ hload]
  · intro hc hmf
    have hload : load_or_create inp.configPresent inp.mapsField =
        .error .configParse := by
      simp [load_or_create, hc, hmf, read_config]
    refine ⟨?_, ?_, ?_⟩ <;> simp [main_err inp _ hload]
  · intro hc
    have hload := load_ok_of_absent inp.configPresent inp.mapsField hc
    refine ⟨hload, ?_, ?_⟩ <;> simp [main_ok inp _ hload, hc]
  · intro hc hmf
    simp [load_or_create, hc, hmf, read_config]

/-- Witness for the amended C7, absent-config half: the default config is
synthesized, persisted, and parses to the empty maps sequence. -/
theorem config_lifecycle_amended_witness :
    ((⟨false, .missing, false, [], none, false, false,
        "d"⟩ : RunInput).configPresent = false) ∧
    (load_or_create false .missing = .ok (Json.arr []) ∧
      (main ⟨false, .missing, false, [], none, false, false,
        "d"⟩).configPresent = true ∧
      (main ⟨false, .missing, false, [], none, false, false,
        "d"⟩).mapsField = defaultMapsField) :=
  ⟨rfl, (config_lifecycle_amended
      ⟨false, .missing, false, [], none, false, false, "d"⟩
      Json.null).2.2.1 rfl⟩

/-- Counterexample to C9 as stated: the temp headshot file exists and its
removal fails — the error escalates out of the finalizer, so the store is
never read, nothing is published, and the run reports failure rather than
success (even though the store holds the run's rows). -/
theorem cleanup_escalates_cex :
    (main ⟨true, .parsed (Json.arr []), true, [shotJett], none, true, true,
        "d"⟩).store = some [["d", "Ascent", "Jett", "1"]] ∧
      (main ⟨true, .parsed (Json.arr []), true, [shotJett], none, true, true,
        "d"⟩).outcome = .failure .osError ∧
      (main ⟨true, .parsed (Json.arr []), true, [shotJett], none, true, true,
        "d"⟩).clipboard = none :=
  ⟨rfl, rfl, rfl⟩

/-- Claim C9 as amended: cleanup of the temp headshot crop is guarded only by
an existence check — when the file is absent, or its removal succeeds, the
finalizer proceeds to read the full store, publish it to the clipboard and
report success; but when removal of an existing temp file fails, the error
escalates: nothing is published and the run reports failure. -/
theorem cleanup_amended (inp : RunInput) (rows : List (List String))
    (hcfg : ∃ m, load_or_create inp.configPresent inp.mapsField = .ok m)
    (hf : inp.folderOk = true)
    (hloop : runLoop inp.date none inp.shots = (some rows, none)) :
    ((inp.tempPresent && inp.tempRemoveFails) = false →
      (main inp).outcome = .success ∧ (main inp).clipboard = some rows ∧
        (main inp).store = some rows) ∧
    (inp.tempPresent = true → inp.tempRemoveFails = true →
      (main inp).outcome = .failure .osError ∧ (main inp).clipboard = none ∧
        (main inp).store = some rows) := by
  obtain ⟨m, hm⟩ := hcfg
  have hrb := runBody_loop_ok inp _ hf hloop
  constructor
  · intro htf
    have hfin := finalize_some inp.tempPresent inp.tempRemoveFails rows htf
    refine ⟨?_, ?_, ?_⟩ <;> simp [main_ok inp m hm, hrb, hfin]
  · intro ht hrf
    have hfin := finalize_fail_and inp.tempPresent inp.tempRemoveFails
      (some rows) (by simp [ht, hrf])
    refine ⟨?_, ?_, ?_⟩ <;> simp [main_ok inp m hm, hrb, hfin]

/-- Witness for the amended C9: temp file present, removal succeeds — the run
publishes the store and reports success. -/
theorem cleanup_amended_witness :
    ((∃ m, load_or_create true (.parsed (Json.arr [])) = .ok m) ∧
      runLoop "d" none [shotJett] = (some [["d", "Ascent", "Jett", "1"]], none)) ∧
    ((main ⟨true, .parsed (Json.arr []), true, [shotJett], none, true, false,
        "d"⟩).outcome = .success ∧
      (main ⟨true, .parsed (Json.arr []), true, [shotJett], none, true, false,
        "d"⟩).clipboard = some [["d", "Ascent", "Jett", "1"]] ∧
      (main ⟨true, .parsed (Json.arr []), true, [shotJett], none, true, false,
        "d"⟩).store = some [["d", "Ascent", "Jett", "1"]]) :=
  ⟨⟨⟨Json.arr [], rfl⟩, rfl⟩,
    (cleanup_amended
      ⟨true, .parsed (Json.arr []), true, [shotJett], none, true, false, "d"⟩
      [["d", "Ascent", "Jett", "1"]] ⟨Json.arr [], rfl⟩
      rfl rfl).1 rfl⟩

end VAL
